import Mathlib

/-!
Verification of the memory-matching round protocol
(`programs/blockchain/src/lib.rs` and `encrypted-ixs/src/lib.rs`).

The on-chain program is embedded shallowly: a `RoundState` record mirrors the
Rust `RoundState` account, each instruction handler becomes a pure function
returning `Except` (an Anchor instruction either succeeds, committing all of
its writes, or aborts with an error code, committing none), and the Anchor
account constraints — which run before the instruction body — are inlined as
the leading checks of each function.  Machine integers are modelled as `Nat`
with explicit bounds: `turns_used` is a `u16`, so it lives below `2 ^ 16` and
`saturating_add` clamps at `65535`.  Opaque 32-byte ciphertext blobs are
byte lists.
-/

namespace Matrix

/-- A ciphertext blob `[u8; 32]`: a list of bytes (all-zero placeholder below). -/
abbrev Card := List Nat

/-- `CARD_COUNT` from lib.rs: both slots hold exactly 16 cards. -/
def CARD_COUNT : Nat := 16

/-- The all-zero 32-byte blob `[0u8; 32]`. -/
def zeroCard : Card := List.replicate 32 0

/-- `u16::MAX`, the saturation ceiling of `turns_used`. -/
def U16_MAX : Nat := 65535

/-- `u16` saturating addition (`saturating_add` in the source). -/
def saturatingAdd16 (a b : Nat) : Nat := min (a + b) U16_MAX

/-- Little-endian byte decoding, as in `u128::from_le_bytes`. -/
def leBytesToNat (bs : List Nat) : Nat :=
  bs.foldr (fun b acc => b + 256 * acc) 0

/-- Little-endian byte encoding of width `w`, as in `u128::to_le_bytes`. -/
def natToLeBytes (w n : Nat) : List Nat :=
  (List.range w).map (fun i => n / 256 ^ i % 256)

/-- `ErrorCode` from lib.rs. -/
inductive ErrorCode where
  | AbortedComputation
  | ClusterNotSet
  | InvalidCardCount
  | CardIndexOutOfBounds
  | UnauthorizedRoundOwner
  | RoundIdMismatch
deriving DecidableEq, Repr

/-- A transaction-level error: either a program `ErrorCode`, or the
system-level failure of Anchor `init` when the PDA account already exists. -/
inductive TxError where
  | code (e : ErrorCode)
  | alreadyExists
deriving DecidableEq, Repr

/-- The `RoundState` account from lib.rs.  `player` is the owner `Pubkey`
(modelled as a `Nat` identity), `round_id` a `u64`, the slots hold 16
ciphertext blobs each, `turns_used` is a `u16`, `pairs_found` a `u8`. -/
structure RoundState where
  player : Nat
  round_id : Nat
  encrypted_cards_slot_a : List Card
  encrypted_cards_slot_b : List Card
  player_pubkey : Card
  board_nonce : List Nat
  turns_used : Nat
  pairs_found : Nat
  completed : Bool
  bump : Nat
deriving DecidableEq, Repr

/-- The copy loop of `register_round` / `set_round_slot_b`: writes the
supplied cards into a zero-initialised `[[0u8; 32]; 16]` array by index.
After the `CARD_COUNT` length guard this is the identity on the list. -/
def fixCards (cards : List Card) : List Card :=
  cards.take CARD_COUNT ++ List.replicate (CARD_COUNT - cards.length) zeroCard

/-- The round store: rounds keyed by the PDA seeds
`(payer pubkey, round_id)` (from `seeds = [ROUND_STATE_SEED, payer, round_id]`). -/
abbrev Store := List ((Nat × Nat) × RoundState)

/-- Look a round up by its `(owner, round_id)` storage key. -/
def storeGet (s : Store) (k : Nat × Nat) : Option RoundState :=
  match s.find? (fun kv => kv.1 = k) with
  | some kv => some kv.2
  | none => none

/-- `register_round` (lib.rs:15-41) acting on the store.  The handler body
checks `encrypted_cards_slot_a.len() == CARD_COUNT` (`InvalidCardCount`
otherwise) and initialises every field of the fresh round.

Modelled from the spec: the Anchor-generated `init` account creation (which
rejects an occupied `(owner, round_id)` key) is framework code not in this
repository; following §4.1/§4.2 it is modelled as an `alreadyExists` failure,
with the card-count check listed first. -/
def register_round (store : Store) (payer round_id : Nat)
    (encrypted_cards_slot_a : List Card) (pubkey : Card) (board_nonce : List Nat)
    (bump : Nat) : Except TxError Store :=
  if encrypted_cards_slot_a.length ≠ CARD_COUNT then
    .error (.code .InvalidCardCount)
  else match storeGet store (payer, round_id) with
    | some _ => .error .alreadyExists
    | none =>
        let round_state : RoundState :=
          { player := payer
            round_id := round_id
            encrypted_cards_slot_a := fixCards encrypted_cards_slot_a
            encrypted_cards_slot_b := List.replicate CARD_COUNT zeroCard
            player_pubkey := pubkey
            board_nonce := board_nonce
            turns_used := 0
            pairs_found := 0
            completed := false
            bump := bump }
        .ok (((payer, round_id), round_state) :: store)

/-- `set_round_slot_b` (lib.rs:43-57) on a located round.  The `SetRoundSlotB`
accounts struct (lib.rs:301-313) carries the constraint
`round_state.player == payer.key() @ UnauthorizedRoundOwner`, which Anchor
evaluates before the handler body; the body then checks `round_id` and the
card count, and overwrites `encrypted_cards_slot_b` unconditionally. -/
def set_round_slot_b (payer : Nat) (st : RoundState) (round_id : Nat)
    (encrypted_cards_slot_b : List Card) : Except ErrorCode RoundState :=
  if st.player ≠ payer then .error .UnauthorizedRoundOwner
  else if round_id ≠ st.round_id then .error .RoundIdMismatch
  else if encrypted_cards_slot_b.length ≠ CARD_COUNT then .error .InvalidCardCount
  else .ok { st with encrypted_cards_slot_b := fixCards encrypted_cards_slot_b }

/-- The payload `verify_pair` hands to `queue_computation` via `ArgBuilder`
(lib.rs:80-85): the round's x25519 pubkey, the board nonce as a plaintext
`u128`, and the two selected ciphertexts. -/
structure QueuedComputation where
  pubkey : Card
  nonce_plaintext : Nat
  card_a_cipher : Card
  card_b_cipher : Card
deriving DecidableEq, Repr

/-- `verify_pair` (lib.rs:64-108).  The `VerifyPair` accounts struct
(lib.rs:172-181) carries the `round_state.player == payer.key()` constraint,
evaluated first; the body checks `round_id`, then both card indices against
`CARD_COUNT`, reads the two ciphertexts, builds the computation args,
increments `turns_used` with `saturating_add(1)`, and queues the computation. -/
def verify_pair (payer : Nat) (st : RoundState) (round_id : Nat)
    (card_a_idx card_b_idx : Nat) : Except ErrorCode (RoundState × QueuedComputation) :=
  if st.player ≠ payer then .error .UnauthorizedRoundOwner
  else if round_id ≠ st.round_id then .error .RoundIdMismatch
  else if ¬ card_a_idx < CARD_COUNT then .error .CardIndexOutOfBounds
  else if ¬ card_b_idx < CARD_COUNT then .error .CardIndexOutOfBounds
  else
    let card_a_cipher := st.encrypted_cards_slot_a.getD card_a_idx zeroCard
    let card_b_cipher := st.encrypted_cards_slot_b.getD card_b_idx zeroCard
    let args : QueuedComputation :=
      { pubkey := st.player_pubkey
        nonce_plaintext := leBytesToNat st.board_nonce
        card_a_cipher := card_a_cipher
        card_b_cipher := card_b_cipher }
    .ok ({ st with turns_used := saturatingAdd16 st.turns_used 1 }, args)

/-- `VerifyPairOutput`'s successful payload: the shared-encryption ciphertext
array and its nonce (a `u128`). -/
structure VerifyPairOutput where
  ciphertexts : List Card
  nonce : Nat
deriving DecidableEq, Repr

/-- The `PairVerified` event (lib.rs:333-341). -/
structure PairVerified where
  player : Nat
  round_id : Nat
  turns_used : Nat
  pairs_found : Nat
  is_match_cipher : Card
  nonce : List Nat
deriving DecidableEq, Repr

/-- `verify_pair_callback` (lib.rs:110-132).  `output.verify_output(...)` is
the external arcium signature/origin validation of the signed result; it is
modelled at its interface boundary as an `Option VerifyPairOutput`: `none`
when validation fails or the upstream computation reported failure, `some o`
on a validated success.  On `none` the handler returns `AbortedComputation`;
on success it emits one `PairVerified` event from the stored round fields and
the result's first ciphertext and nonce, and writes nothing. -/
def verify_pair_callback (st : RoundState) (output : Option VerifyPairOutput) :
    Except ErrorCode (RoundState × List PairVerified) :=
  match output with
  | none => .error .AbortedComputation
  | some o =>
      .ok (st,
        [{ player := st.player
           round_id := st.round_id
           turns_used := st.turns_used
           pairs_found := st.pairs_found
           is_match_cipher := o.ciphertexts.getD 0 zeroCard
           nonce := natToLeBytes 16 o.nonce }])

/-- The `RoundSettled` event (lib.rs:343-353). -/
structure RoundSettled where
  player : Nat
  round_id : Nat
  turns_used : Nat
  pairs_found : Nat
  completed : Bool
  solve_ms : Nat
  points_delta : Int
  nonce_hash : List Nat
deriving DecidableEq, Repr

/-- `settle_round_score` (lib.rs:134-166).  The `SettleRoundScore` accounts
struct (lib.rs:289-299) carries the `round_state.player == payer.key()`
constraint, evaluated before the body; the body re-checks `round_id` and the
owner, overwrites `turns_used` / `pairs_found` / `completed` with the
caller-supplied values, and emits `RoundSettled` with every argument
verbatim. -/
def settle_round_score (payer : Nat) (st : RoundState) (round_id turns_used
    pairs_found : Nat) (completed : Bool) (solve_ms : Nat) (points_delta : Int)
    (nonce_hash : List Nat) : Except ErrorCode (RoundState × RoundSettled) :=
  if st.player ≠ payer then .error .UnauthorizedRoundOwner
  else if round_id ≠ st.round_id then .error .RoundIdMismatch
  else if st.player ≠ payer then .error .UnauthorizedRoundOwner
  else
    .ok ({ st with
            turns_used := turns_used
            pairs_found := pairs_found
            completed := completed },
         { player := payer
           round_id := round_id
           turns_used := turns_used
           pairs_found := pairs_found
           completed := completed
           solve_ms := solve_ms
           points_delta := points_delta
           nonce_hash := nonce_hash })

/-- One mutating operation on an existing round (post-registration). -/
inductive Op where
  | setSlotB (payer round_id : Nat) (cards : List Card)
  | verifyPair (payer round_id card_a_idx card_b_idx : Nat)
  | verifyPairCallback (output : Option VerifyPairOutput)
  | settleRoundScore (payer round_id turns_used pairs_found : Nat)
      (completed : Bool) (solve_ms : Nat) (points_delta : Int)
      (nonce_hash : List Nat)
deriving Repr

/-- Machine-integer bounds on an operation's arguments, from the Rust types:
`turns_used : u16`, `pairs_found : u8`. -/
def Op.wf : Op → Prop
  | .settleRoundScore _ _ turns_used pairs_found _ _ _ _ =>
      turns_used ≤ U16_MAX ∧ pairs_found ≤ 255
  | _ => True

instance : DecidablePred Op.wf := by
  intro op; unfold Op.wf; cases op <;> infer_instance

/-- Whether an operation is the settlement instruction. -/
def Op.isSettle : Op → Bool
  | .settleRoundScore _ _ _ _ _ _ _ _ => true
  | _ => false

/-- Apply one operation to a round: a failing instruction aborts the whole
transaction, so the stored round is unchanged on error. -/
def applyOp (st : RoundState) : Op → RoundState
  | .setSlotB payer round_id cards =>
      match set_round_slot_b payer st round_id cards with
      | .ok st1 => st1
      | .error _ => st
  | .verifyPair payer round_id a b =>
      match verify_pair payer st round_id a b with
      | .ok (st1, _) => st1
      | .error _ => st
  | .verifyPairCallback output =>
      match verify_pair_callback st output with
      | .ok (st1, _) => st1
      | .error _ => st
  | .settleRoundScore payer round_id turns_used pairs_found completed solve_ms
      points_delta nonce_hash =>
      match settle_round_score payer st round_id turns_used pairs_found
          completed solve_ms points_delta nonce_hash with
      | .ok (st1, _) => st1
      | .error _ => st

/-- Apply a sequence of operations left to right. -/
def applyOps (st : RoundState) (ops : List Op) : RoundState :=
  ops.foldl applyOp st

end Matrix

namespace Circuits

/-- `VerifyPairInput` from encrypted-ixs/src/lib.rs: the two card bytes. -/
structure VerifyPairInput where
  card_a : Nat
  card_b : Nat
deriving DecidableEq, Repr

/-- A shared-key ciphertext at the circuit's boundary: `to_arcis` recovers the
plaintext inside the enclave, `owner.from_arcis` re-encrypts a result to the
input's owner.  Modelled as the owner identity paired with the plaintext. -/
structure Enc (α : Type) where
  owner : Nat
  plaintext : α
deriving DecidableEq, Repr

/-- The confidential `verify_pair` circuit (encrypted-ixs/src/lib.rs:12-17):
decrypts the input pair, computes `is_match = if card_a == card_b { 1 } else { 0 }`,
and re-encrypts that byte to the input's owner. -/
def verify_pair (input_ctxt : Enc VerifyPairInput) : Enc Nat :=
  let input := input_ctxt.plaintext
  let is_match : Nat := if input.card_a = input.card_b then 1 else 0
  { owner := input_ctxt.owner, plaintext := is_match }

end Circuits

namespace Matrix

/-- A concrete registered round used to instantiate theorems: owned by
identity `1`, round id `7`, both slots zero-filled, counters at zero. -/
def sampleRound : RoundState :=
  { player := 1
    round_id := 7
    encrypted_cards_slot_a := List.replicate CARD_COUNT zeroCard
    encrypted_cards_slot_b := List.replicate CARD_COUNT zeroCard
    player_pubkey := zeroCard
    board_nonce := List.replicate 16 0
    turns_used := 0
    pairs_found := 0
    completed := false
    bump := 0 }

/-- Under the `CARD_COUNT` length guard the copy loop is the identity. -/
theorem fixCards_eq_self (cards : List Card) (h : cards.length = CARD_COUNT) :
    fixCards cards = cards := by
  simp [fixCards, h, List.take_of_length_le h.le]

/-- C10: the confidential `verify_pair` circuit returns to the input's owner
an encryption whose decrypted byte is `1` exactly when `card_a = card_b` and
`0` exactly when they differ. -/
theorem claim_c10_circuit_equality_indicator
    (input_ctxt : Circuits.Enc Circuits.VerifyPairInput) :
    (Circuits.verify_pair input_ctxt).owner = input_ctxt.owner ∧
    ((Circuits.verify_pair input_ctxt).plaintext = 1 ↔
      input_ctxt.plaintext.card_a = input_ctxt.plaintext.card_b) ∧
    ((Circuits.verify_pair input_ctxt).plaintext = 0 ↔
      input_ctxt.plaintext.card_a ≠ input_ctxt.plaintext.card_b) := by
  unfold Circuits.verify_pair
  by_cases h : input_ctxt.plaintext.card_a = input_ctxt.plaintext.card_b <;>
    simp [h]

/-- C8: a callback whose signed result validates emits exactly one
`PairVerified` event whose `player`, `round_id`, `turns_used`, `pairs_found`
equal the stored round values and whose match cipher and nonce come from the
result, and it leaves every field of the round state unchanged. -/
theorem claim_c8_callback_success_frame (st : RoundState) (o : VerifyPairOutput) :
    ∃ ev : PairVerified,
      verify_pair_callback st (some o) = .ok (st, [ev]) ∧
      ev.player = st.player ∧ ev.round_id = st.round_id ∧
      ev.turns_used = st.turns_used ∧ ev.pairs_found = st.pairs_found ∧
      ev.is_match_cipher = o.ciphertexts.getD 0 zeroCard ∧
      ev.nonce = natToLeBytes 16 o.nonce :=
  ⟨_, rfl, rfl, rfl, rfl, rfl, rfl, rfl⟩

/-- C1 counterexample: a `set_round_slot_b` call whose located round stores
owner `1` while the caller is `2` is rejected by the explicit owner-equality
constraint with `UnauthorizedRoundOwner` — contradicting the claim that no
such explicit rejection exists. -/
theorem claim_c1_counterexample :
    set_round_slot_b 2 sampleRound 7 (List.replicate CARD_COUNT zeroCard) =
      .error .UnauthorizedRoundOwner := by
  simp [set_round_slot_b, sampleRound]

/-- C1 amended: `set_round_slot_b` does perform an explicit owner-equality
check beyond key derivation (the `SetRoundSlotB` account constraint,
lib.rs:310): a call whose round stores an owner different from the caller is
rejected with `UnauthorizedRoundOwner`, and a call whose stored owner equals
the caller is never rejected with that error. -/
theorem claim_c1_amended (payer round_id : Nat) (st : RoundState)
    (cards : List Card) :
    (st.player ≠ payer →
      set_round_slot_b payer st round_id cards = .error .UnauthorizedRoundOwner) ∧
    (st.player = payer →
      set_round_slot_b payer st round_id cards ≠ .error .UnauthorizedRoundOwner) := by
  constructor
  · intro h
    simp [set_round_slot_b, h]
  · intro h
    simp only [set_round_slot_b, h]
    split_ifs <;> simp_all

/-- C1 amended, witnessed at a concrete call: owner `1`, caller `2`. -/
theorem claim_c1_amended_witness :
    set_round_slot_b 2 sampleRound 9 [] = .error .UnauthorizedRoundOwner :=
  (claim_c1_amended 2 9 sampleRound []).1 (by decide)

/-- C9: `set_round_slot_b` overwrites `slot_b` unconditionally — two
successive valid calls with card arrays `X` then `Y` both succeed (the second
is not rejected for `slot_b` being already set) and afterwards the stored
`slot_b` equals `Y`. -/
theorem claim_c9_set_slot_b_last_write_wins (payer round_id : Nat)
    (st : RoundState) (X Y : List Card)
    (hown : st.player = payer) (hrid : round_id = st.round_id)
    (hX : X.length = CARD_COUNT) (hY : Y.length = CARD_COUNT) :
    ∃ st1 st2,
      set_round_slot_b payer st round_id X = .ok st1 ∧
      set_round_slot_b payer st1 round_id Y = .ok st2 ∧
      st2.encrypted_cards_slot_b = Y := by
  refine ⟨{ st with encrypted_cards_slot_b := X },
          { st with encrypted_cards_slot_b := Y }, ?_, ?_, rfl⟩
  · simp [set_round_slot_b, hown, hrid, hX, fixCards_eq_self X hX]
  · simp [set_round_slot_b, hown, hrid, hY, fixCards_eq_self Y hY]

/-- C9 witnessed: two concrete overwrites on the sample round. -/
theorem claim_c9_witness :
    ∃ st1 st2,
      set_round_slot_b 1 sampleRound 7 (List.replicate CARD_COUNT zeroCard)
        = .ok st1 ∧
      set_round_slot_b 1 st1 7 (List.replicate CARD_COUNT (List.replicate 32 1))
        = .ok st2 ∧
      st2.encrypted_cards_slot_b = List.replicate CARD_COUNT (List.replicate 32 1) :=
  claim_c9_set_slot_b_last_write_wins 1 7 sampleRound _ _ rfl rfl
    (by simp) (by simp)

/-- C5: a `verify_pair` call with a card index `≥ 16` always fails and leaves
the round unchanged (no `turns_used` increment happens before the rejection);
when the round is properly located (owner and id match) the error is
`CardIndexOutOfBounds`. -/
theorem claim_c5_verify_pair_oob (payer round_id a b : Nat) (st : RoundState)
    (hab : CARD_COUNT ≤ a ∨ CARD_COUNT ≤ b) :
    (st.player = payer → round_id = st.round_id →
      verify_pair payer st round_id a b = .error .CardIndexOutOfBounds) ∧
    (∀ st1 args, verify_pair payer st round_id a b ≠ .ok (st1, args)) ∧
    applyOp st (Op.verifyPair payer round_id a b) = st := by
  have herr : ∀ st1 args, verify_pair payer st round_id a b ≠ .ok (st1, args) := by
    intro st1 args hok
    simp only [verify_pair] at hok
    split_ifs at hok with h1 h2 h3 h4
    rcases hab with h | h
    · exact absurd h3 (Nat.not_lt.mpr h)
    · exact absurd h4 (Nat.not_lt.mpr h)
  refine ⟨?_, herr, ?_⟩
  · intro h1 h2
    by_cases ha : a < CARD_COUNT
    · have hb : ¬ b < CARD_COUNT := by
        rcases hab with h | h
        · exact absurd ha (Nat.not_lt.mpr h)
        · exact Nat.not_lt.mpr h
      simp [verify_pair, h1, h2, ha, hb]
    · simp [verify_pair, h1, h2, ha]
  · cases hres : verify_pair payer st round_id a b with
    | ok v => exact absurd hres (herr v.1 v.2)
    | error e => simp [applyOp, hres]

/-- C5 witnessed: index `16` on the sample round. -/
theorem claim_c5_witness :
    verify_pair 1 sampleRound 7 16 0 = .error .CardIndexOutOfBounds ∧
    applyOp sampleRound (Op.verifyPair 1 7 16 0) = sampleRound := by
  have h := claim_c5_verify_pair_oob 1 7 16 0 sampleRound (Or.inl (by decide))
  exact ⟨h.1 rfl rfl, h.2.2⟩

/-- C4: `settle_round_score` fails with `UnauthorizedRoundOwner` when the
stored owner differs from the caller, fails with `RoundIdMismatch` when the
id disagrees (owner matching), leaves `turns_used`/`pairs_found`/`completed`
unchanged in both failure cases, and on success overwrites exactly those
three fields with the supplied values and emits a `RoundSettled` event
carrying every supplied field, `solve_ms` and `points_delta` included,
verbatim. -/
theorem claim_c4_settle_round_score (payer round_id turns pairs : Nat)
    (completed : Bool) (solve_ms : Nat) (points_delta : Int)
    (nonce_hash : List Nat) (st : RoundState) :
    (st.player ≠ payer →
      settle_round_score payer st round_id turns pairs completed solve_ms
        points_delta nonce_hash = .error .UnauthorizedRoundOwner) ∧
    (st.player = payer → round_id ≠ st.round_id →
      settle_round_score payer st round_id turns pairs completed solve_ms
        points_delta nonce_hash = .error .RoundIdMismatch) ∧
    (st.player ≠ payer ∨ round_id ≠ st.round_id →
      applyOp st (Op.settleRoundScore payer round_id turns pairs completed
        solve_ms points_delta nonce_hash) = st) ∧
    (st.player = payer → round_id = st.round_id →
      settle_round_score payer st round_id turns pairs completed solve_ms
        points_delta nonce_hash =
        .ok ({ st with
                turns_used := turns
                pairs_found := pairs
                completed := completed },
             { player := payer
               round_id := round_id
               turns_used := turns
               pairs_found := pairs
               completed := completed
               solve_ms := solve_ms
               points_delta := points_delta
               nonce_hash := nonce_hash })) := by
  refine ⟨?_, ?_, ?_, ?_⟩
  · intro h
    simp [settle_round_score, h]
  · intro h1 h2
    simp [settle_round_score, h1, h2]
  · intro h
    rcases h with h | h
    · simp [applyOp, settle_round_score, h]
    · by_cases h1 : st.player = payer
      · simp [applyOp, settle_round_score, h1, h]
      · simp [applyOp, settle_round_score, h1]
  · intro h1 h2
    simp [settle_round_score, h1, h2]

/-- C4 witnessed: the three scenarios at concrete calls on the sample round. -/
theorem claim_c4_witness :
    settle_round_score 2 sampleRound 7 3 1 true 100 (-5) [] =
      .error .UnauthorizedRoundOwner ∧
    settle_round_score 1 sampleRound 8 3 1 true 100 (-5) [] =
      .error .RoundIdMismatch ∧
    settle_round_score 1 sampleRound 7 3 1 true 100 (-5) [] =
      .ok ({ sampleRound with
              turns_used := 3
              pairs_found := 1
              completed := true },
           { player := 1
             round_id := 7
             turns_used := 3
             pairs_found := 1
             completed := true
             solve_ms := 100
             points_delta := -5
             nonce_hash := [] }) :=
  ⟨(claim_c4_settle_round_score 2 7 3 1 true 100 (-5) [] sampleRound).1
      (by decide),
   (claim_c4_settle_round_score 1 8 3 1 true 100 (-5) [] sampleRound).2.1
      rfl (by decide),
   (claim_c4_settle_round_score 1 7 3 1 true 100 (-5) [] sampleRound).2.2.2
      rfl rfl⟩

/-- Inversion: a successful `set_round_slot_b` only overwrites `slot_b`. -/
theorem set_round_slot_b_ok (payer round_id : Nat) (st st1 : RoundState)
    (cards : List Card) (h : set_round_slot_b payer st round_id cards = .ok st1) :
    st1 = { st with encrypted_cards_slot_b := fixCards cards } := by
  simp only [set_round_slot_b] at h
  split_ifs at h
  simp only [Except.ok.injEq] at h
  exact h.symm

/-- Inversion: a successful `verify_pair` only bumps `turns_used`, by a
saturating increment of one. -/
theorem verify_pair_ok (payer round_id a b : Nat) (st st1 : RoundState)
    (args : QueuedComputation)
    (h : verify_pair payer st round_id a b = .ok (st1, args)) :
    st1 = { st with turns_used := saturatingAdd16 st.turns_used 1 } := by
  simp only [verify_pair] at h
  split_ifs at h
  simp only [Except.ok.injEq, Prod.mk.injEq] at h
  exact h.1.symm

/-- Inversion: a successful `settle_round_score` writes exactly the three
supplied score fields. -/
theorem settle_round_score_ok (payer round_id turns pairs : Nat)
    (completed : Bool) (solve_ms : Nat) (points_delta : Int)
    (nonce_hash : List Nat) (st st1 : RoundState) (ev : RoundSettled)
    (h : settle_round_score payer st round_id turns pairs completed solve_ms
          points_delta nonce_hash = .ok (st1, ev)) :
    st1 = { st with
             turns_used := turns
             pairs_found := pairs
             completed := completed } := by
  simp only [settle_round_score] at h
  split_ifs at h
  simp only [Except.ok.injEq, Prod.mk.injEq] at h
  exact h.1.symm

/-- C3: `register_round` with a `slot_a` of length ≠ 16 fails with
`InvalidCardCount`, creating no record; a valid call (length exactly 16,
key unoccupied) creates a record owned by the caller with the supplied
`round_id` and `slot_a`, all-zero `slot_b`, `turns_used = 0`,
`pairs_found = 0`, `completed = false`. -/
theorem claim_c3_register_round (store : Store) (payer round_id : Nat)
    (cards : List Card) (pubkey : Card) (board_nonce : List Nat) (bump : Nat) :
    (cards.length ≠ CARD_COUNT →
      register_round store payer round_id cards pubkey board_nonce bump =
        .error (.code .InvalidCardCount)) ∧
    (cards.length = CARD_COUNT → storeGet store (payer, round_id) = none →
      ∃ store1,
        register_round store payer round_id cards pubkey board_nonce bump =
          .ok store1 ∧
        storeGet store1 (payer, round_id) = some
          { player := payer
            round_id := round_id
            encrypted_cards_slot_a := cards
            encrypted_cards_slot_b := List.replicate CARD_COUNT zeroCard
            player_pubkey := pubkey
            board_nonce := board_nonce
            turns_used := 0
            pairs_found := 0
            completed := false
            bump := bump }) := by
  constructor
  · intro h
    simp [register_round, h]
  · intro h hfree
    refine ⟨((payer, round_id),
             { player := payer
               round_id := round_id
               encrypted_cards_slot_a := cards
               encrypted_cards_slot_b := List.replicate CARD_COUNT zeroCard
               player_pubkey := pubkey
               board_nonce := board_nonce
               turns_used := 0
               pairs_found := 0
               completed := false
               bump := bump }) :: store, ?_, ?_⟩
    · simp [register_round, h, hfree, fixCards_eq_self cards h]
    · simp [storeGet, List.find?]

/-- C3 witnessed: a bad-length call and a fresh valid registration. -/
theorem claim_c3_witness :
    register_round [] 1 7 [] zeroCard (List.replicate 16 0) 0 =
      .error (.code .InvalidCardCount) ∧
    ∃ store1,
      register_round [] 1 7 (List.replicate CARD_COUNT zeroCard) zeroCard
        (List.replicate 16 0) 0 = .ok store1 ∧
      storeGet store1 (1, 7) = some
        { player := 1
          round_id := 7
          encrypted_cards_slot_a := List.replicate CARD_COUNT zeroCard
          encrypted_cards_slot_b := List.replicate CARD_COUNT zeroCard
          player_pubkey := zeroCard
          board_nonce := List.replicate 16 0
          turns_used := 0
          pairs_found := 0
          completed := false
          bump := 0 } :=
  ⟨(claim_c3_register_round [] 1 7 [] zeroCard (List.replicate 16 0) 0).1
      (by decide),
   (claim_c3_register_round [] 1 7 (List.replicate CARD_COUNT zeroCard)
      zeroCard (List.replicate 16 0) 0).2 (by simp) rfl⟩

/-- C7: when the signed result fails origin/signature validation or the
upstream computation reports failure, the callback fails with
`AbortedComputation`, emits no `PairVerified` event, and leaves the round —
in particular `turns_used` — at the value set by the preceding `verify_pair`
dispatch; the dispatch-time saturating increment is not rolled back. -/
theorem claim_c7_callback_abort (payer round_id a b : Nat)
    (st st1 : RoundState) (args : QueuedComputation)
    (hd : verify_pair payer st round_id a b = .ok (st1, args)) :
    verify_pair_callback st1 none = .error .AbortedComputation ∧
    (∀ st2 evs, verify_pair_callback st1 none ≠ .ok (st2, evs)) ∧
    applyOp st1 (Op.verifyPairCallback none) = st1 ∧
    st1.turns_used = saturatingAdd16 st.turns_used 1 := by
  refine ⟨rfl, ?_, ?_, ?_⟩
  · intro st2 evs h
    exact Except.noConfusion ((rfl : verify_pair_callback st1 none = _) ▸ h)
  · simp [applyOp, verify_pair_callback]
  · rw [verify_pair_ok payer round_id a b st st1 args hd]

/-- C7 witnessed: a concrete dispatch on the sample round followed by a
failed-validation callback. -/
theorem claim_c7_witness :
    verify_pair_callback { sampleRound with turns_used := 1 } none =
      .error .AbortedComputation ∧
    ({ sampleRound with turns_used := 1 } : RoundState).turns_used =
      saturatingAdd16 sampleRound.turns_used 1 := by
  have h := claim_c7_callback_abort 1 7 0 0 sampleRound
    { sampleRound with turns_used := 1 }
    { pubkey := zeroCard
      nonce_plaintext := 0
      card_a_cipher := zeroCard
      card_b_cipher := zeroCard } rfl
  exact ⟨h.1, h.2.2.2⟩

/-- Saturating increments compose: clamping after each step agrees with
clamping once at the end. -/
theorem min_sat_step (t n A : Nat) :
    min (min (t + 1) A + n) A = min (t + (n + 1)) A := by
  omega

/-- A well-located `verify_pair` succeeds and saturates `turns_used`:
iterating it `N` times yields `min (turns_used + N) u16::MAX`. -/
theorem applyOps_replicate_verify (payer round_id a b : Nat)
    (ha : a < CARD_COUNT) (hb : b < CARD_COUNT) (N : Nat) :
    ∀ st : RoundState, st.player = payer → round_id = st.round_id →
      st.turns_used ≤ U16_MAX →
      (applyOps st (List.replicate N (Op.verifyPair payer round_id a b))).turns_used
        = min (st.turns_used + N) U16_MAX := by
  induction N with
  | zero =>
    intro st _ _ ht
    simp only [List.replicate_zero, applyOps, List.foldl_nil]
    omega
  | succ n ih =>
    intro st hown hrid ht
    have hstep : applyOp st (Op.verifyPair payer round_id a b) =
        { st with turns_used := saturatingAdd16 st.turns_used 1 } := by
      simp [applyOp, verify_pair, hown, hrid, ha, hb]
    have hrec := ih { st with turns_used := saturatingAdd16 st.turns_used 1 }
      (by simpa using hown) (by simpa using hrid)
      (by simp [saturatingAdd16])
    simp only [List.replicate_succ, applyOps, List.foldl_cons] at hrec ⊢
    rw [hstep, hrec]
    simp only [saturatingAdd16]
    exact min_sat_step st.turns_used n U16_MAX

/-- C6: from a round located by its owner with in-range indices, each
`verify_pair` call succeeds and adds exactly one to `turns_used` with
saturation, `N` iterated calls yield `min (turns_used + N) u16::MAX`, and a
call made at `u16::MAX` leaves `turns_used` at `u16::MAX`. -/
theorem claim_c6_verify_pair_increments (payer round_id a b N : Nat)
    (st : RoundState) (hown : st.player = payer) (hrid : round_id = st.round_id)
    (ha : a < CARD_COUNT) (hb : b < CARD_COUNT) (ht : st.turns_used ≤ U16_MAX) :
    (∃ args, verify_pair payer st round_id a b =
      .ok ({ st with turns_used := saturatingAdd16 st.turns_used 1 }, args)) ∧
    (applyOps st (List.replicate N (Op.verifyPair payer round_id a b))).turns_used
      = min (st.turns_used + N) U16_MAX ∧
    (st.turns_used = U16_MAX →
      (applyOp st (Op.verifyPair payer round_id a b)).turns_used = U16_MAX) := by
  refine ⟨⟨{ pubkey := st.player_pubkey
             nonce_plaintext := leBytesToNat st.board_nonce
             card_a_cipher := st.encrypted_cards_slot_a.getD a zeroCard
             card_b_cipher := st.encrypted_cards_slot_b.getD b zeroCard },
           by simp [verify_pair, hown, hrid, ha, hb]⟩, ?_, ?_⟩
  · exact applyOps_replicate_verify payer round_id a b ha hb N st hown hrid ht
  · intro hmax
    have := applyOps_replicate_verify payer round_id a b ha hb 1 st hown hrid ht
    simp only [List.replicate_one, applyOps, List.foldl_cons, List.foldl_nil] at this
    rw [this, hmax]
    omega

/-- C6 witnessed: two calls on the fresh sample round reach `turns_used = 2`. -/
theorem claim_c6_witness :
    (applyOps sampleRound (List.replicate 2 (Op.verifyPair 1 7 0 0))).turns_used
      = min (sampleRound.turns_used + 2) U16_MAX :=
  (claim_c6_verify_pair_increments 1 7 0 0 2 sampleRound rfl rfl
    (by decide) (by decide) (by decide)).2.1

/-- C2 counterexample: `settle_round_score` overwrites `turns_used` with the
caller-supplied value, so after one verification (`turns_used = 1`) a
settlement supplying `turns_used = 0` succeeds and decreases the stored
counter from `1` to `0`. -/
theorem claim_c2_counterexample :
    (applyOp { sampleRound with turns_used := 1 }
        (Op.settleRoundScore 1 7 0 0 false 0 0 [])).turns_used <
      ({ sampleRound with turns_used := 1 } : RoundState).turns_used := by
  simp [applyOp, settle_round_score, sampleRound]

/-- `applyOp` keeps `turns_used` below the `u16` ceiling when the operation's
arguments respect their machine-integer types. -/
theorem applyOp_turns_bound (st : RoundState) (op : Op) (hwf : op.wf)
    (ht : st.turns_used ≤ U16_MAX) : (applyOp st op).turns_used ≤ U16_MAX := by
  cases op with
  | setSlotB p rid cards =>
    cases h : set_round_slot_b p st rid cards with
    | error e => simpa [applyOp, h] using ht
    | ok st1 =>
      have h1 := set_round_slot_b_ok p rid st st1 cards h
      simp [applyOp, h, h1]
      exact ht
  | verifyPair p rid a b =>
    cases h : verify_pair p st rid a b with
    | error e => simpa [applyOp, h] using ht
    | ok v =>
      have h1 := verify_pair_ok p rid a b st v.1 v.2 h
      simp [applyOp, h, h1, saturatingAdd16]
  | verifyPairCallback output =>
    cases output with
    | none => simpa [applyOp, verify_pair_callback] using ht
    | some o => simpa [applyOp, verify_pair_callback] using ht
  | settleRoundScore p rid turns pairs completed solve_ms points_delta nonce_hash =>
    cases h : settle_round_score p st rid turns pairs completed solve_ms
        points_delta nonce_hash with
    | error e => simpa [applyOp, h] using ht
    | ok v =>
      have h1 := settle_round_score_ok p rid turns pairs completed solve_ms
        points_delta nonce_hash st v.1 v.2 h
      simp [applyOp, h, h1]
      exact hwf.1

/-- Every operation other than settlement leaves `turns_used` no smaller. -/
theorem applyOp_turns_mono (st : RoundState) (op : Op)
    (hns : op.isSettle = false) (ht : st.turns_used ≤ U16_MAX) :
    st.turns_used ≤ (applyOp st op).turns_used := by
  cases op with
  | setSlotB p rid cards =>
    cases h : set_round_slot_b p st rid cards with
    | error e => simp [applyOp, h]
    | ok st1 =>
      have h1 := set_round_slot_b_ok p rid st st1 cards h
      simp [applyOp, h, h1]
  | verifyPair p rid a b =>
    cases h : verify_pair p st rid a b with
    | error e => simp [applyOp, h]
    | ok v =>
      have h1 := verify_pair_ok p rid a b st v.1 v.2 h
      simp [applyOp, h, h1, saturatingAdd16]
      omega
  | verifyPairCallback output =>
    cases output with
    | none => simp [applyOp, verify_pair_callback]
    | some o => simp [applyOp, verify_pair_callback]
  | settleRoundScore p rid turns pairs completed solve_ms points_delta nonce_hash =>
    exact absurd hns (by simp [Op.isSettle])

/-- C2 amended: along any operation sequence whose arguments respect their
machine-integer types, `turns_used` never exceeds `u16::MAX` (`verify_pair`
saturates rather than wrapping), and it never decreases across
`set_slot_b` / `verify_pair` / callback steps; `settle_round_score`, however,
replaces `turns_used` with the caller-supplied `u16`, which may be smaller
than the stored value. -/
theorem claim_c2_amended (ops : List Op) :
    (∀ op ∈ ops, op.wf) →
    ∀ st : RoundState, st.turns_used ≤ U16_MAX →
      (applyOps st ops).turns_used ≤ U16_MAX ∧
      ((∀ op ∈ ops, op.isSettle = false) →
        st.turns_used ≤ (applyOps st ops).turns_used) := by
  induction ops with
  | nil =>
    intro _ st ht
    exact ⟨ht, fun _ => le_refl _⟩
  | cons op rest ih =>
    intro hwf st ht
    have hop : op.wf := hwf op (by simp)
    have hrest : ∀ o ∈ rest, o.wf := fun o ho => hwf o (by simp [ho])
    have hbound := applyOp_turns_bound st op hop ht
    have h1 := ih hrest (applyOp st op) hbound
    constructor
    · simpa [applyOps] using h1.1
    · intro hns
      have hmono := applyOp_turns_mono st op (hns op (by simp)) ht
      have h2 := h1.2 (fun o ho => hns o (by simp [ho]))
      calc st.turns_used ≤ (applyOp st op).turns_used := hmono
        _ ≤ (applyOps (applyOp st op) rest).turns_used := h2
        _ = (applyOps st (op :: rest)).turns_used := by
              simp [applyOps]

/-- C2 amended, witnessed: a verification then a settlement on the sample
round keep `turns_used` within the `u16` range. -/
theorem claim_c2_amended_witness :
    (applyOps sampleRound
        [Op.verifyPair 1 7 0 0,
         Op.settleRoundScore 1 7 5 0 false 0 0 []]).turns_used ≤ U16_MAX :=
  (claim_c2_amended
    [Op.verifyPair 1 7 0 0, Op.settleRoundScore 1 7 5 0 false 0 0 []]
    (by decide) sampleRound (by decide)).1

end Matrix
